import Mathlib

/-
Shallow embedding of the ronaldseoh/SiLLM core under verification:
  * src/sillm/gemma.py      - gemma model forward pass (RMSNorm, causal mask,
                              per-layer cache threading, weight-tied output)
  * src/sillm/training/trainer.py - TrainableLLM.evaluate and TrainableLLM.train

Modelling conventions:
  * Python floats are modelled as exact rationals; the irrational operations
    `mx.rsqrt` and `** 0.5` are passed in as abstract function parameters, so
    every statement is uniform in the choice of square-root implementation.
  * MLX dtypes are modelled as a tag carried alongside the exact data.
    `astype` changes the tag; value rounding is outside the model.
  * Tensors are modelled per batch element: a 1-d tensor is a list of
    rationals (the trailing dimension), a hidden state is a list of rows
    (sequence positions), each of width `dim`.
  * The attention internals (`llama.Attention`) and the dataset
    (`sillm.training.dataset.Dataset`) are external to src/ and are modelled
    as abstract capabilities, following the interface the spec gives them.
-/

namespace SiLLM

/-- MLX numeric dtypes relevant to the model (float16 / float32). -/
inductive DType where
  | fp16 : DType
  | fp32 : DType
deriving DecidableEq, Repr

/-- MLX type promotion for a binary op: float32 wins over float16. -/
def promoteDType : DType → DType → DType
  | DType.fp32, _ => DType.fp32
  | _, DType.fp32 => DType.fp32
  | d, _ => d

/-- A 1-d tensor (the trailing dimension): exact data plus a dtype tag. -/
structure Tensor1 where
  data : List ℚ
  dtype : DType
deriving DecidableEq, Repr

/-- `t.astype(d)`: re-tag the tensor; values are exact in this model. -/
def Tensor1.astype (t : Tensor1) (d : DType) : Tensor1 :=
  { data := t.data, dtype := d }

/-- Arithmetic mean of a list of rationals (`np.mean` / `.mean(-1)`). -/
def mean (l : List ℚ) : ℚ := l.sum / (l.length : ℚ)

/-- Translation of `rms_norm` (src/sillm/gemma.py lines 10-15):
    x = x.astype(float32);
    x = x * rsqrt(x.square().mean(-1) + eps);
    return (1.0 + weight) * x.astype(weight.dtype).
    `rsqrt` abstracts `mx.rsqrt`. -/
def rms_norm (rsqrt : ℚ → ℚ) (x weight : Tensor1) (eps : ℚ) : Tensor1 :=
  let x1 := x.astype DType.fp32
  let m := mean (x1.data.map (fun v => v * v)) + eps
  let x2 : Tensor1 := { data := x1.data.map (fun v => v * rsqrt m), dtype := x1.dtype }
  let xc := x2.astype weight.dtype
  { data := List.zipWith (fun w v => (1 + w) * v) weight.data xc.data,
    dtype := promoteDType weight.dtype xc.dtype }

/-- Modelled from the spec (section 4.1 Normalizer), for the refinement claim:
    compute in elevated precision y = x / sqrt(mean(x^2) + eps), return
    (1 + w) * y cast back to the ORIGINAL INPUT tensor's precision. -/
def rms_norm_specCast (rsqrt : ℚ → ℚ) (x weight : Tensor1) (eps : ℚ) : Tensor1 :=
  let m := mean (x.data.map (fun v => v * v)) + eps
  { data := List.zipWith (fun w v => (1 + w) * v) weight.data
      (x.data.map (fun v => v * rsqrt m)),
    dtype := x.dtype }

/-- The RMSNorm module (src/sillm/gemma.py lines 17-29). -/
structure RMSNormM where
  weight : Tensor1
  eps : ℚ

/-- `RMSNorm.__init__`: `self.weight = mx.ones((dims,))` (float32 default),
    `self.eps = eps`. -/
def RMSNormM.init (dims : Nat) (eps : ℚ) : RMSNormM :=
  { weight := { data := List.replicate dims 1, dtype := DType.fp32 }, eps := eps }

/-- `RMSNorm.__call__`: `rms_norm(x, self.weight, self.eps)`. -/
def RMSNormM.apply (m : RMSNormM) (rsqrt : ℚ → ℚ) (x : Tensor1) : Tensor1 :=
  rms_norm rsqrt x m.weight m.eps

/-- An additive attention mask: entries are either a finite rational or
    bottom, which stands for the -inf used to forbid attention. -/
structure MaskT where
  data : List (List (WithBot ℚ))
  dtype : DType
deriving DecidableEq

/-- `mask.astype(d)`: re-tag the mask. -/
def MaskT.astype (m : MaskT) (d : DType) : MaskT :=
  { data := m.data, dtype := d }

/-- Modelled from the spec (section 4.4, step 2): the external
    `nn.MultiHeadAttention.create_additive_causal_mask(N)` capability, an
    N by N additive mask with -inf above the diagonal and 0 elsewhere,
    produced in float32. -/
def createAdditiveCausalMask (n : Nat) : MaskT :=
  { data := (List.range n).map (fun i =>
      (List.range n).map (fun j => if i < j then (⊥ : WithBot ℚ) else 0)),
    dtype := DType.fp32 }

/-- A hidden state for one batch element: rows are sequence positions. -/
structure HMat where
  data : List (List ℚ)
  dtype : DType
deriving DecidableEq

/-- A decoder layer as a capability: hidden state, optional mask, optional
    prior cache entry, to new hidden state and new cache entry.  The layer
    internals (attention) are external to src/. -/
abbrev LayerFn (C : Type) : Type :=
  HMat → Option MaskT → Option C → HMat × C

/-- Embedding lookup `self.tok_embeddings(inputs)` for one batch element:
    each token id selects its row of the table. -/
def embedLookup (table : List (List ℚ)) (inputs : List Nat) : List (List ℚ) :=
  inputs.map (fun t => table.getD t [])

/-- Dot product of two rows. -/
def dot (a b : List ℚ) : ℚ := (List.zipWith (fun x y => x * y) a b).sum

/-- `A @ B.T` for row-major matrices: row i of the result holds the dot
    products of row i of A with each row of B. -/
def matMulTransB (a b : List (List ℚ)) : List (List ℚ) :=
  a.map (fun r => b.map (fun s => dot r s))

/-- The final norm applied row-wise to a hidden state (the last axis of the
    3-d tensor is the row), as `self.norm(h)` does. -/
def rmsNormMat (m : RMSNormM) (rsqrt : ℚ → ℚ) (h : HMat) : HMat :=
  { data := h.data.map (fun row =>
      (rms_norm rsqrt { data := row, dtype := h.dtype } m.weight m.eps).data),
    dtype := promoteDType m.weight.dtype m.weight.dtype }

/-- The mask construction of `Model.__call__` (src/sillm/gemma.py lines
    100-103): no mask unless the sequence length exceeds 1, otherwise the
    additive causal mask cast to the hidden-state dtype. -/
def modelMask (d : DType) (seqLen : Nat) : Option MaskT :=
  if 1 < seqLen then some ((createAdditiveCausalMask seqLen).astype d) else none

/-- The cache default of `Model.__call__` (lines 105-106): an absent cache
    becomes `[None] * len(self.layers)`. -/
def initialCache {C : Type} (cache : Option (List (Option C))) (nLayers : Nat) :
    List (Option C) :=
  cache.getD (List.replicate nLayers none)

/-- The layer loop of `Model.__call__` (lines 108-109):
    `for e, layer in enumerate(self.layers): h, cache[e] = layer(h, mask, cache[e])`.
    A cache shorter than the layer list is a Python IndexError, modelled as
    `none`; extra cache entries beyond the layers are returned untouched. -/
def runLayers {C : Type} :
    List (LayerFn C) → HMat → Option MaskT → List (Option C) →
    Option (HMat × List (Option C))
  | [], h, _, rest => some (h, rest)
  | layer :: ls, h, mask, c :: cs =>
      let hc := layer h mask c
      match runLayers ls hc.1 mask cs with
      | none => none
      | some (hfin, cs') => some (hfin, some hc.2 :: cs')
  | _ :: _, _, _, [] => none

/-- The hidden state reaching layer i: the input state threaded through the
    first i layers with their own cache entries. -/
def hiddenBefore {C : Type} :
    List (LayerFn C) → HMat → Option MaskT → List (Option C) → Nat → HMat
  | _, h, _, _, 0 => h
  | layer :: ls, h, mask, c :: cs, i + 1 =>
      hiddenBefore ls (layer h mask c).1 mask cs i
  | _, h, _, _, _ + 1 => h

/-- The model arguments consumed by `Model.__init__` (args.dim, args.n_layers,
    args.vocab_size, args.norm_eps). -/
structure GemmaArgs where
  dim : Nat
  nLayers : Nat
  vocabSize : Nat
  normEps : ℚ

/-- The gemma `Model` state (src/sillm/gemma.py lines 67-84): an embedding
    table, the ordered layer list, and the final norm.  There is no output
    projection field: the decoder has no independent output weight matrix. -/
structure GemmaModel (C : Type) where
  args : GemmaArgs
  nLayers : Nat
  vocabSize : Nat
  tokEmbeddings : List (List ℚ)
  embDType : DType
  layers : List (LayerFn C)
  norm : RMSNormM

/-- `Model.__init__`: layer list of length `args.n_layers` built from the
    (external) transformer-block constructor, final `RMSNorm(args.dim,
    eps=args.norm_eps)`. -/
def mkModel {C : Type} (args : GemmaArgs) (mkLayer : GemmaArgs → LayerFn C)
    (table : List (List ℚ)) (dt : DType) : GemmaModel C :=
  { args := args
    nLayers := args.nLayers
    vocabSize := args.vocabSize
    tokEmbeddings := table
    embDType := dt
    layers := (List.range args.nLayers).map (fun _ => mkLayer args)
    norm := RMSNormM.init args.dim args.normEps }

/-- The embedded and scaled input `h = self.tok_embeddings(inputs) * dim**0.5`
    (lines 97-98).  `sqrtf` abstracts `** 0.5`. -/
def embedScaled {C : Type} (m : GemmaModel C) (sqrtf : Nat → ℚ)
    (inputs : List Nat) : HMat :=
  { data := (embedLookup m.tokEmbeddings inputs).map
      (fun row => row.map (fun v => v * sqrtf m.args.dim)),
    dtype := m.embDType }

/-- Translation of `Model.__call__` (src/sillm/gemma.py lines 86-113) for a
    single batch element.  The two nested loops of the original are the
    sequential layer fold `runLayers`; the weight-tied output projection is
    `self.norm(h) @ self.tok_embeddings.weight.T`. -/
def modelCall {C : Type} (m : GemmaModel C) (sqrtf : Nat → ℚ) (rsqrt : ℚ → ℚ)
    (inputs : List Nat) (cache : Option (List (Option C))) :
    Option (List (List ℚ) × List (Option C)) :=
  let h0 := embedScaled m sqrtf inputs
  let mask := modelMask h0.dtype h0.data.length
  let cache0 := initialCache cache m.layers.length
  match runLayers m.layers h0 mask cache0 with
  | none => none
  | some (hfin, cache') =>
      some (matMulTransB (rmsNormMat m.norm rsqrt hfin).data m.tokEmbeddings, cache')

/-- Modelled from the spec (section 6 External Interfaces):
    `sillm.training.dataset.Dataset` is imported by the trainer but is not
    part of src/.  Per the spec, `len()` is its length, training-mode batch
    iteration is an infinite, restartable lazy sequence (here a total stream
    indexed by position), and evaluation-mode iteration is finite per call
    (here a list). -/
structure Dataset (B : Type) where
  length : Nat
  trainBatches : Nat → Nat → B
  evalBatches : Nat → List B

/-- The training-run configuration and external capabilities consumed by
    `TrainableLLM.train`: the loss capability (loss, optional reward vector,
    token count), the autodiff capability, the optimizer-update capability,
    and the recognized keyword options.  `hasReportCallback` records whether
    `report_callback` is configured. -/
structure TrainerCfg (B S G : Type) where
  lossFn : S → B → ℚ × Option (List ℚ) × ℚ
  gradFn : S → B → G
  optUpdate : S → G → S
  initState : S
  batchSize : Nat
  optimizerType : String
  epochs : Nat
  iterations : Nat
  reportSteps : Nat
  evalSteps : Nat
  validationSamples : Nat
  hasReportCallback : Bool

/-- Translation of `TrainableLLM.evaluate` (src/sillm/training/trainer.py
    lines 59-81): zip `range(num_batches)` against the evaluation-mode batch
    iterator (so it draws `min(num_batches, available)` batches), take the
    scalar loss of each, return the mean.  The method is written in
    state-passing style: the source contains no parameter update, so the
    state comes back unchanged. -/
def evaluate {B S : Type} (lossFn : S → B → ℚ × Option (List ℚ) × ℚ) (st : S)
    (d : Dataset B) (batchSize numBatches : Nat) : ℚ × S :=
  let batches := (d.evalBatches batchSize).take numBatches
  let losses := batches.map (fun b => (lossFn st b).1)
  (mean losses, st)

/-- The number of batches `evaluate` draws from the dataset. -/
def evalBatchesDrawn {B : Type} (d : Dataset B) (batchSize numBatches : Nat) : Nat :=
  ((d.evalBatches batchSize).take numBatches).length

/-- The recognized optimizer variants. -/
inductive OptKind where
  | adam : OptKind
  | adamw : OptKind
deriving DecidableEq, Repr

/-- Python `str.lower()`: lowercase each character. -/
def pyLower (s : String) : String := String.mk (s.data.map Char.toLower)

/-- Translation of the optimizer selection (trainer.py lines 129-136):
    lowercase the name, accept adam and adamw, otherwise raise
    `ValueError(f"Unknown optimizer type: ...")` with the lowercased name. -/
def selectOptimizer (optimizerType : String) : Except String OptKind :=
  let t := pyLower optimizerType
  if t = "adam" then Except.ok OptKind.adam
  else if t = "adamw" then Except.ok OptKind.adamw
  else Except.error ("Unknown optimizer type: " ++ t)

/-- The mutable state of the training loop: the training state plus the
    telemetry accumulators, and the traces of emitted reports, callback
    invocations, validation evaluations and consumed batches.  Wall-clock
    timers and the memory probe are external and not modelled. -/
structure LoopState (B S : Type) where
  st : S
  losses : List ℚ
  intvTokens : ℚ
  rewards : Option (List (List ℚ))
  reports : List (Nat × ℚ)
  callbackCalls : List (Nat × ℚ)
  evals : List (Nat × ℚ)
  batchesUsed : List B

/-- The loop state before the first iteration (trainer.py lines 165-167). -/
def initLoop {B S G : Type} (cfg : TrainerCfg B S G) : LoopState B S :=
  { st := cfg.initState
    losses := []
    intvTokens := 0
    rewards := none
    reports := []
    callbackCalls := []
    evals := []
    batchesUsed := [] }

/-- Translation of one body of the training loop (trainer.py lines 174-236)
    at global step `n = epoch * iterations + iter`:
    draw `next(dataset_training.iterate_batches(batch_size, train=True))`
    (the first batch of a fresh training iterator), run the step (loss,
    gradient, optimizer update; the compiled and eager paths compute the
    same thing), record loss/tokens/reward, then the report cadence and the
    evaluation cadence.  The memory probe and the progress-bar output are
    external I/O and not modelled. -/
def trainStep {B S G : Type} (cfg : TrainerCfg B S G) (dtrain dval : Dataset B)
    (n : Nat) (ls : LoopState B S) : LoopState B S :=
  let batch := dtrain.trainBatches cfg.batchSize 0
  let out := cfg.lossFn ls.st batch
  let grad := cfg.gradFn ls.st batch
  let st' := cfg.optUpdate ls.st grad
  let ls1 : LoopState B S :=
    { ls with
      st := st'
      losses := ls.losses ++ [out.1]
      intvTokens := ls.intvTokens + out.2.2
      rewards := match out.2.1 with
        | none => ls.rewards
        | some r => match ls.rewards with
          | none => some [r]
          | some rs => some (rs ++ [r])
      batchesUsed := ls.batchesUsed ++ [batch] }
  let ls2 : LoopState B S :=
    if (n + 1) % cfg.reportSteps = 0 then
      { ls1 with
        reports := ls1.reports ++ [(n + 1, mean ls1.losses)]
        callbackCalls :=
          if cfg.hasReportCallback then ls1.callbackCalls ++ [(n + 1, mean ls1.losses)]
          else ls1.callbackCalls
        rewards := none
        losses := []
        intvTokens := 0 }
    else ls1
  if n = 0 ∨ (n + 1) % cfg.evalSteps = 0 then
    { ls2 with
      evals := ls2.evals ++
        [(n + 1, (evaluate cfg.lossFn ls2.st dval cfg.batchSize
            (cfg.validationSamples / cfg.batchSize)).1)] }
  else ls2

/-- The loop state after the first `k` global steps.  The two nested epoch
    and iteration loops of the source enumerate the global step
    `n = epoch * iterations + iter` in increasing order, which this fold
    makes explicit. -/
def runSteps {B S G : Type} (cfg : TrainerCfg B S G) (dtrain dval : Dataset B)
    (k : Nat) : LoopState B S :=
  (List.range k).foldl (fun ls n => trainStep cfg dtrain dval n ls) (initLoop cfg)

/-- The iteration count per epoch (trainer.py lines 119-121):
    `if iterations == 0: iterations = len(dataset_training) // batch_size`. -/
def effectiveIterations (iterations datasetLength batchSize : Nat) : Nat :=
  if iterations = 0 then datasetLength / batchSize else iterations

/-- Translation of `TrainableLLM.train` (trainer.py lines 87-236): compute
    the iteration count, select the optimizer (raising on an unknown name
    before the loop starts), then run `epochs * iterations` global steps. -/
def train {B S G : Type} (cfg : TrainerCfg B S G) (dtrain dval : Dataset B) :
    Except String (LoopState B S) :=
  let iterations := effectiveIterations cfg.iterations dtrain.length cfg.batchSize
  match selectOptimizer cfg.optimizerType with
  | Except.error e => Except.error e
  | Except.ok _ => Except.ok (runSteps cfg dtrain dval (cfg.epochs * iterations))

/-- The number of training batches a finished (or failed) run consumed: a
    configuration error occurs before the loop, so no batch was drawn. -/
def trainBatchesDrawn {B S : Type} (r : Except String (LoopState B S)) : Nat :=
  match r with
  | Except.error _ => 0
  | Except.ok s => s.batchesUsed.length

/-- The scalar loss computed at global step `n` of the run. -/
def stepLoss {B S G : Type} (cfg : TrainerCfg B S G) (dtrain dval : Dataset B)
    (n : Nat) : ℚ :=
  (cfg.lossFn (runSteps cfg dtrain dval n).st (dtrain.trainBatches cfg.batchSize 0)).1

/-! ## Theorems -/

/-- Zipping `1 + w` against ones-initialized weights doubles every entry. -/
theorem zipWith_one_add_replicate (n : Nat) (l : List ℚ) (hlen : l.length = n) :
    List.zipWith (fun w v => (1 + w) * v) (List.replicate n (1 : ℚ)) l =
      l.map (fun v => 2 * v) := by
  induction l generalizing n with
  | nil => subst hlen; rfl
  | cons a as ih =>
    subst hlen
    simp only [List.length_cons, List.replicate_succ, List.zipWith_cons_cons,
      List.map_cons, ih as.length rfl]
    norm_num

/-- C1 counterexample: as stated the claim quantifies over every weight
    vector, but `rms_norm` casts to the WEIGHT's dtype, so a float16 input
    with a float32 weight is returned in float32, not in the input's
    precision. -/
theorem claim1_counterexample :
    (Tensor1.mk [1] DType.fp16).data.length = (Tensor1.mk [0] DType.fp32).data.length ∧
    rms_norm (fun _ => 1) (Tensor1.mk [1] DType.fp16) (Tensor1.mk [0] DType.fp32) 0 ≠
      rms_norm_specCast (fun _ => 1) (Tensor1.mk [1] DType.fp16) (Tensor1.mk [0] DType.fp32) 0 := by
  refine ⟨rfl, ?_⟩
  simp [rms_norm, rms_norm_specCast, Tensor1.astype, mean, promoteDType]

/-- C1 (amended): for every input tensor and weight vector, `rms_norm`
    computes, on exact values, y = x * rsqrt(mean(x^2, last-axis) + eps)
    and returns (1 + w) * y; the result is cast to the weight's numeric
    precision, which agrees with the spec's "original input precision"
    exactly when input and weight share a dtype. -/
theorem claim1_theorem (rsqrt : ℚ → ℚ) (x w : Tensor1) (eps : ℚ)
    (hdt : x.dtype = w.dtype) :
    rms_norm rsqrt x w eps = rms_norm_specCast rsqrt x w eps := by
  have hp : promoteDType w.dtype w.dtype = w.dtype := by cases w.dtype <;> rfl
  simp [rms_norm, rms_norm_specCast, Tensor1.astype, hp, hdt]

/-- C1 witness: the amended claim at a concrete matching-dtype input. -/
theorem claim1_witness :
    (Tensor1.mk [1] DType.fp16).dtype = (Tensor1.mk [0] DType.fp16).dtype ∧
    rms_norm (fun _ => 1) (Tensor1.mk [1] DType.fp16) (Tensor1.mk [0] DType.fp16) 0 =
      rms_norm_specCast (fun _ => 1) (Tensor1.mk [1] DType.fp16) (Tensor1.mk [0] DType.fp16) 0 :=
  ⟨rfl, claim1_theorem (fun _ => 1) (Tensor1.mk [1] DType.fp16) (Tensor1.mk [0] DType.fp16) 0 rfl⟩

/-- C9: a freshly constructed RMSNorm initializes its weight to all ones,
    so the default-constructed normalizer scales the normalized input by
    exactly 2 = 1 + 1; the ones default is not the zero weight that the
    identity scale would require. -/
theorem claim9_theorem (dims : Nat) (eps : ℚ) (rsqrt : ℚ → ℚ) (x : Tensor1)
    (hlen : x.data.length = dims) :
    (RMSNormM.init dims eps).weight.data = List.replicate dims 1 ∧
    ((RMSNormM.init dims eps).apply rsqrt x).data =
      x.data.map (fun v =>
        2 * (v * rsqrt (mean (x.data.map (fun u => u * u)) + eps))) ∧
    (0 < dims → (RMSNormM.init dims eps).weight.data ≠ List.replicate dims 0) := by
  refine ⟨rfl, ?_, ?_⟩
  · have hd : ((RMSNormM.init dims eps).apply rsqrt x).data =
        List.zipWith (fun w v => (1 + w) * v) (List.replicate dims (1 : ℚ))
          (x.data.map (fun v =>
            v * rsqrt (mean (x.data.map (fun u => u * u)) + eps))) := rfl
    rw [hd, zipWith_one_add_replicate dims _ (by simpa using hlen), List.map_map]
    rfl
  · intro hd heq
    cases dims with
    | zero => exact absurd rfl (Nat.ne_of_gt hd)
    | succ k =>
      have h1 : (RMSNormM.init (k + 1) eps).weight.data = 1 :: List.replicate k 1 := by
        simp [RMSNormM.init, List.replicate_succ]
      rw [h1, List.replicate_succ] at heq
      have h0 : (1 : ℚ) = 0 := by injection heq
      norm_num at h0

/-- C3: the forward pass builds no mask for a single-position sequence; for
    length L greater than 1 it builds the L by L additive causal mask, cast
    to the hidden-state dtype, with -inf exactly at the entries (i, j) with
    j greater than i and 0 elsewhere. -/
theorem claim3_theorem (d : DType) (L : Nat) :
    (L = 1 → modelMask d L = none) ∧
    (1 < L → ∃ mk, modelMask d L = some mk ∧ mk.dtype = d ∧
      mk.data.length = L ∧ (∀ row ∈ mk.data, row.length = L) ∧
      ∀ i j, i < L → j < L →
        (mk.data.getD i []).getD j 0 = if i < j then (⊥ : WithBot ℚ) else 0) := by
  constructor
  · intro hL
    subst hL
    rfl
  · intro hL
    refine ⟨(createAdditiveCausalMask L).astype d, by simp [modelMask, hL], rfl, ?_, ?_, ?_⟩
    · simp [createAdditiveCausalMask, MaskT.astype]
    · intro row hrow
      simp only [createAdditiveCausalMask, MaskT.astype, List.mem_map] at hrow
      obtain ⟨i, _, hrow⟩ := hrow
      simp [← hrow]
    · intro i j hi hj
      simp [createAdditiveCausalMask, MaskT.astype, List.getD_eq_getElem?_getD,
        List.getElem?_map, List.getElem?_range, hi, hj]

/-- C3 witness: at L = 1 no mask; at L = 2 the concrete causal mask. -/
theorem claim3_witness :
    modelMask DType.fp16 1 = none ∧
    (∃ mk, modelMask DType.fp16 2 = some mk ∧ mk.dtype = DType.fp16 ∧
      mk.data.length = 2 ∧ (∀ row ∈ mk.data, row.length = 2) ∧
      ∀ i j, i < 2 → j < 2 →
        (mk.data.getD i []).getD j 0 = if i < j then (⊥ : WithBot ℚ) else 0) :=
  ⟨(claim3_theorem DType.fp16 1).1 rfl, (claim3_theorem DType.fp16 2).2 (by norm_num)⟩

/-- The layer loop: with an index-aligned cache it succeeds, returns one
    entry per layer, and the entry at index i is produced by layer i from
    cache entry i and the hidden state threaded through the first i layers. -/
theorem runLayers_aligned {C : Type} :
    ∀ (layers : List (LayerFn C)) (cache : List (Option C)) (h : HMat)
      (mask : Option MaskT), cache.length = layers.length →
      ∃ hfin cache', runLayers layers h mask cache = some (hfin, cache') ∧
        cache'.length = layers.length ∧
        ∀ (i : Nat) (l : LayerFn C) (c : Option C), layers[i]? = some l → cache[i]? = some c →
          cache'[i]? = some (some ((l (hiddenBefore layers h mask cache i) mask c).2)) := by
  intro layers
  induction layers with
  | nil =>
    intro cache h mask hlen
    have hc : cache = [] := List.eq_nil_of_length_eq_zero hlen
    subst hc
    exact ⟨h, [], rfl, rfl, by intro i l c hl _; simp at hl⟩
  | cons l ls ih =>
    intro cache h mask hlen
    cases cache with
    | nil => simp at hlen
    | cons c cs =>
      simp only [List.length_cons, Nat.succ.injEq] at hlen
      obtain ⟨hfin, cs', hrun, hclen, hidx⟩ := ih cs (l h mask c).1 mask hlen
      refine ⟨hfin, some (l h mask c).2 :: cs', ?_, by simp [hclen], ?_⟩
      · show runLayers (l :: ls) h mask (c :: cs) = _
        simp only [runLayers, hrun]
      · intro i li ci hli hci
        cases i with
        | zero =>
          simp only [List.getElem?_cons_zero, Option.some.injEq] at hli hci
          subst hli; subst hci
          simp [hiddenBefore]
        | succ i =>
          simp only [List.getElem?_cons_succ] at hli hci ⊢
          exact hidx i li ci hli hci

/-- C4: an absent cache is initialized as one empty placeholder per layer
    (n_layers of them for an initialized model); the layer loop applies the
    layers in order, reads and writes the cache entry at index i only
    through layer i, and returns a cache with one entry per layer. -/
theorem claim4_theorem {C : Type} (layers : List (LayerFn C)) (cache : List (Option C))
    (h : HMat) (mask : Option MaskT) (hlen : cache.length = layers.length)
    (args : GemmaArgs) (mkLayer : GemmaArgs → LayerFn C) (table : List (List ℚ))
    (dt : DType) :
    initialCache (C := C) none layers.length = List.replicate layers.length none ∧
    (mkModel args mkLayer table dt).layers.length = (mkModel args mkLayer table dt).nLayers ∧
    (∃ hfin cache', runLayers layers h mask cache = some (hfin, cache') ∧
      cache'.length = layers.length ∧
      ∀ (i : Nat) (l : LayerFn C) (c : Option C), layers[i]? = some l → cache[i]? = some c →
        cache'[i]? = some (some ((l (hiddenBefore layers h mask cache i) mask c).2))) :=
  ⟨rfl, by simp [mkModel], runLayers_aligned layers cache h mask hlen⟩

/-- Concrete two-layer instances for exercising the cache-threading loop. -/
def wLayers : List (LayerFn Nat) := [fun h _ _ => (h, 5), fun h _ _ => (h, 6)]

def wCache : List (Option Nat) := [none, none]

def wH : HMat := { data := [], dtype := DType.fp32 }

def wArgs : GemmaArgs := { dim := 1, nLayers := 2, vocabSize := 3, normEps := 0 }

def wLayer : GemmaArgs → LayerFn Nat := fun _ => fun h _ _ => (h, 0)

/-- C4 witness: the theorem at a concrete two-layer model and cache. -/
theorem claim4_witness :
    wCache.length = wLayers.length ∧
    (initialCache (C := Nat) none wLayers.length = List.replicate wLayers.length none ∧
     (mkModel wArgs wLayer [] DType.fp32).layers.length =
       (mkModel wArgs wLayer [] DType.fp32).nLayers ∧
     (∃ hfin cache', runLayers wLayers wH none wCache = some (hfin, cache') ∧
        cache'.length = wLayers.length ∧
        ∀ (i : Nat) (l : LayerFn Nat) (c : Option Nat),
          wLayers[i]? = some l → wCache[i]? = some c →
          cache'[i]? = some (some ((l (hiddenBefore wLayers wH none wCache i) none c).2)))) :=
  ⟨rfl, claim4_theorem wLayers wCache wH none rfl wArgs wLayer [] DType.fp32⟩

/-- The forward pass as the layer fold followed by the tied projection. -/
theorem modelCall_eq {C : Type} (m : GemmaModel C) (sqrtf : Nat → ℚ) (rsqrt : ℚ → ℚ)
    (inputs : List Nat) (cache : Option (List (Option C))) :
    modelCall m sqrtf rsqrt inputs cache =
      match runLayers m.layers (embedScaled m sqrtf inputs)
          (modelMask (embedScaled m sqrtf inputs).dtype
            (embedScaled m sqrtf inputs).data.length)
          (initialCache cache m.layers.length) with
      | none => none
      | some (hfin, cache') =>
          some (matMulTransB (rmsNormMat m.norm rsqrt hfin).data m.tokEmbeddings,
            cache') := rfl

/-- C2: whenever the forward pass returns, the hidden state it starts from is
    the embedding lookup scaled by sqrt(dim), and the returned logits are
    normalize(h) multiplied against the transpose of the very same embedding
    table used for the lookup; the model owns no other output matrix. -/
theorem claim2_theorem {C : Type} (m : GemmaModel C) (sqrtf : Nat → ℚ)
    (rsqrt : ℚ → ℚ) (inputs : List Nat) (cache : Option (List (Option C)))
    (out : List (List ℚ)) (cache' : List (Option C))
    (hcall : modelCall m sqrtf rsqrt inputs cache = some (out, cache')) :
    (embedScaled m sqrtf inputs).data =
      (embedLookup m.tokEmbeddings inputs).map
        (fun row => row.map (fun v => v * sqrtf m.args.dim)) ∧
    ∃ hfin, runLayers m.layers (embedScaled m sqrtf inputs)
        (modelMask (embedScaled m sqrtf inputs).dtype
          (embedScaled m sqrtf inputs).data.length)
        (initialCache cache m.layers.length) = some (hfin, cache') ∧
      out = matMulTransB (rmsNormMat m.norm rsqrt hfin).data m.tokEmbeddings := by
  refine ⟨rfl, ?_⟩
  rw [modelCall_eq] at hcall
  cases hrun : runLayers m.layers (embedScaled m sqrtf inputs)
      (modelMask (embedScaled m sqrtf inputs).dtype
        (embedScaled m sqrtf inputs).data.length)
      (initialCache cache m.layers.length) with
  | none => rw [hrun] at hcall; exact absurd hcall (by simp)
  | some p =>
    obtain ⟨hfin0, cache0⟩ := p
    rw [hrun] at hcall
    simp only [Option.some.injEq, Prod.mk.injEq] at hcall
    exact ⟨hfin0, by rw [hcall.2], hcall.1.symm⟩

/-- A concrete one-layer model for exercising the forward pass. -/
def wModel : GemmaModel Unit :=
  { args := { dim := 1, nLayers := 1, vocabSize := 1, normEps := 0 }
    nLayers := 1
    vocabSize := 1
    tokEmbeddings := [[1]]
    embDType := DType.fp32
    layers := [fun h _ _ => (h, ())]
    norm := RMSNormM.init 1 0 }

/-- C2 witness: the theorem at the concrete one-layer model. -/
theorem claim2_witness :
    (embedScaled wModel (fun _ => 1) [0]).data =
      (embedLookup wModel.tokEmbeddings [0]).map
        (fun row => row.map (fun v => v * (fun _ => (1 : ℚ)) wModel.args.dim)) ∧
    ∃ hfin, runLayers wModel.layers (embedScaled wModel (fun _ => 1) [0])
        (modelMask (embedScaled wModel (fun _ => 1) [0]).dtype
          (embedScaled wModel (fun _ => 1) [0]).data.length)
        (initialCache none wModel.layers.length) = some (hfin, [some ()]) ∧
      [[(2 : ℚ)]] = matMulTransB (rmsNormMat wModel.norm (fun _ => 1) hfin).data
        wModel.tokEmbeddings :=
  claim2_theorem wModel (fun _ => 1) (fun _ => 1) [0] none [[2]] [some ()] (by
    rw [modelCall_eq]
    norm_num [wModel, embedScaled, embedLookup, modelMask, initialCache, runLayers,
      rmsNormMat, rms_norm, RMSNormM.init, Tensor1.astype, mean, matMulTransB, dot,
      List.replicate_succ])

/-- C5 counterexample: with a dataset whose evaluation-mode iterator yields a
    single batch, evaluate asked for two batches draws only one, because the
    source zips `range(num_batches)` against the iterator. -/
theorem claim5_counterexample :
    evalBatchesDrawn (Dataset.mk 5 (fun _ _ => (0 : ℚ)) (fun _ => [1])) 1 2 ≠ 2 := by
  decide

/-- C5 (amended): evaluate draws exactly num_batches evaluation-mode batches
    whenever the evaluation iterator yields at least that many (otherwise it
    draws all it yields), computes the loss on each without any parameter
    update, returns the arithmetic mean of the per-batch losses, and leaves
    the model state unchanged. -/
theorem claim5_theorem {B S : Type} (lossFn : S → B → ℚ × Option (List ℚ) × ℚ)
    (st : S) (d : Dataset B) (batchSize numBatches : Nat)
    (hAvail : numBatches ≤ (d.evalBatches batchSize).length) :
    evalBatchesDrawn d batchSize numBatches = numBatches ∧
    (evaluate lossFn st d batchSize numBatches).1 =
      (((d.evalBatches batchSize).take numBatches).map
        (fun b => (lossFn st b).1)).sum / (numBatches : ℚ) ∧
    (evaluate lossFn st d batchSize numBatches).2 = st := by
  have hlen : ((d.evalBatches batchSize).take numBatches).length = numBatches := by
    rw [List.length_take]
    exact Nat.min_eq_left hAvail
  refine ⟨hlen, ?_, rfl⟩
  have hmaplen : (((d.evalBatches batchSize).take numBatches).map
      (fun b => (lossFn st b).1)).length = numBatches := by
    rw [List.length_map, hlen]
  show mean (((d.evalBatches batchSize).take numBatches).map
      (fun b => (lossFn st b).1)) = _
  rw [mean, hmaplen]

/-- A concrete dataset: the training stream repeats batch 1, the evaluation
    iterator yields the two batches 1 and 3. -/
def wDataset : Dataset ℚ :=
  { length := 4, trainBatches := fun _ _ => 1, evalBatches := fun _ => [1, 3] }

/-- C5 witness: the amended claim at the concrete dataset, two batches. -/
theorem claim5_witness :
    2 ≤ ((wDataset.evalBatches 1).length) ∧
    (evalBatchesDrawn wDataset 1 2 = 2 ∧
     (evaluate (fun s b => (s + b, none, 1)) (1 : ℚ) wDataset 1 2).1 =
       (((wDataset.evalBatches 1).take 2).map
         (fun b => ((fun s b => (s + b, (none : Option (List ℚ)), (1 : ℚ))) (1 : ℚ) b).1)).sum
         / (2 : ℚ) ∧
     (evaluate (fun s b => (s + b, none, 1)) (1 : ℚ) wDataset 1 2).2 = 1) :=
  ⟨by decide, claim5_theorem (fun s b => (s + b, none, 1)) 1 wDataset 1 2 (by decide)⟩

/-- A concrete training configuration over rational batches and state. -/
def wCfg : TrainerCfg ℚ ℚ ℚ :=
  { lossFn := fun s b => (s + b, none, 1)
    gradFn := fun _ _ => 0
    optUpdate := fun s g => s + g + 1
    initState := 0
    batchSize := 1
    optimizerType := "adam"
    epochs := 1
    iterations := 2
    reportSteps := 2
    evalSteps := 5
    validationSamples := 2
    hasReportCallback := true }

/-- C6 counterexample: the name ADAM lies outside {adam, adamw}, yet train
    does not raise, because the source lowercases the name before checking. -/
theorem claim6_counterexample :
    (("ADAM" : String) ≠ "adam" ∧ ("ADAM" : String) ≠ "adamw") ∧
    (train { wCfg with optimizerType := "ADAM", epochs := 0 } wDataset wDataset).isOk
      = true := by
  constructor
  · exact ⟨by decide, by decide⟩
  · decide

/-- C6 (amended): for every optimizer_type whose lowercased form is outside
    {adam, adamw}, train fails with the configuration error coming from the
    optimizer selection that precedes the training loop, so no training batch
    is drawn; a name lowercasing to adam or adamw raises no such error. -/
theorem claim6_theorem {B S G : Type} (cfg : TrainerCfg B S G)
    (dtrain dval : Dataset B) :
    (pyLower cfg.optimizerType ≠ "adam" → pyLower cfg.optimizerType ≠ "adamw" →
      train cfg dtrain dval =
        Except.error ("Unknown optimizer type: " ++ pyLower cfg.optimizerType) ∧
      trainBatchesDrawn (train cfg dtrain dval) = 0) ∧
    (pyLower cfg.optimizerType = "adam" ∨ pyLower cfg.optimizerType = "adamw" →
      (train cfg dtrain dval).isOk = true) := by
  constructor
  · intro h1 h2
    have hsel : selectOptimizer cfg.optimizerType =
        Except.error ("Unknown optimizer type: " ++ pyLower cfg.optimizerType) := by
      simp [selectOptimizer, h1, h2]
    constructor
    · simp [train, hsel]
    · simp [train, hsel, trainBatchesDrawn]
  · intro h
    rcases h with h | h <;> simp [train, selectOptimizer, h, Except.isOk, Except.toBool]

/-- C6 witness: sgdx raises the configuration error with zero batches drawn;
    adam does not. -/
theorem claim6_witness :
    (train { wCfg with optimizerType := "sgdx" } wDataset wDataset =
        Except.error ("Unknown optimizer type: " ++
          pyLower ({ wCfg with optimizerType := "sgdx" } : TrainerCfg ℚ ℚ ℚ).optimizerType) ∧
      trainBatchesDrawn (train { wCfg with optimizerType := "sgdx" } wDataset wDataset) = 0) ∧
    (train wCfg wDataset wDataset).isOk = true :=
  ⟨(claim6_theorem { wCfg with optimizerType := "sgdx" } wDataset wDataset).1
      (by decide) (by decide),
   (claim6_theorem wCfg wDataset wDataset).2 (Or.inl (by decide))⟩

/-- Unfolding one step of the training loop fold. -/
theorem runSteps_succ {B S G : Type} (cfg : TrainerCfg B S G) (dtrain dval : Dataset B)
    (k : Nat) :
    runSteps cfg dtrain dval (k + 1) =
      trainStep cfg dtrain dval k (runSteps cfg dtrain dval k) := by
  rw [runSteps, runSteps, List.range_succ, List.foldl_append, List.foldl_cons,
    List.foldl_nil]

/-- A training step always appends the first batch of a fresh training-mode
    iterator; the reporting and evaluation branches leave the trace alone. -/
theorem trainStep_batchesUsed {B S G : Type} (cfg : TrainerCfg B S G)
    (dtrain dval : Dataset B) (n : Nat) (ls : LoopState B S) :
    (trainStep cfg dtrain dval n ls).batchesUsed =
      ls.batchesUsed ++ [dtrain.trainBatches cfg.batchSize 0] := by
  simp only [trainStep]
  split <;> split <;> rfl

/-- After k steps the batch trace is k copies of the stream's first batch. -/
theorem runSteps_batchesUsed {B S G : Type} (cfg : TrainerCfg B S G)
    (dtrain dval : Dataset B) (k : Nat) :
    (runSteps cfg dtrain dval k).batchesUsed =
      List.replicate k (dtrain.trainBatches cfg.batchSize 0) := by
  induction k with
  | zero => rfl
  | succ k ih =>
    rw [runSteps_succ, trainStep_batchesUsed, ih, List.replicate_succ']

/-- C8: when iterations == 0 the per-epoch iteration count is computed as
    len(dataset_training) // batch_size; 100 and 10 give 10; and the run
    executes epochs times that many global steps. -/
theorem claim8_theorem :
    (∀ len bs : Nat, 0 < bs → effectiveIterations 0 len bs = len / bs) ∧
    effectiveIterations 0 100 10 = 10 ∧
    (∀ {B S G : Type} (cfg : TrainerCfg B S G) (dtrain dval : Dataset B),
      0 < cfg.reportSteps → 0 < cfg.evalSteps →
      (runSteps cfg dtrain dval
          (cfg.epochs * effectiveIterations cfg.iterations dtrain.length cfg.batchSize)
        ).batchesUsed.length =
        cfg.epochs * effectiveIterations cfg.iterations dtrain.length cfg.batchSize) := by
  refine ⟨fun len bs _ => rfl, rfl, ?_⟩
  intro B S G cfg dtrain dval _ _
  rw [runSteps_batchesUsed, List.length_replicate]

/-- C8 witness: len 100 with batch size 10 gives 10 iterations, and the
    concrete configuration runs epochs * iterations steps. -/
theorem claim8_witness :
    (0 < 10 ∧ effectiveIterations 0 100 10 = 10) ∧
    (0 < wCfg.reportSteps ∧ 0 < wCfg.evalSteps ∧
     (runSteps wCfg { wDataset with length := 100, evalBatches := fun _ => [1, 3] }
         wDataset
         (wCfg.epochs * effectiveIterations wCfg.iterations
           ({ wDataset with length := 100, evalBatches := fun _ => [1, 3] }
             : Dataset ℚ).length wCfg.batchSize)).batchesUsed.length =
       wCfg.epochs * effectiveIterations wCfg.iterations
         ({ wDataset with length := 100, evalBatches := fun _ => [1, 3] }
           : Dataset ℚ).length wCfg.batchSize) :=
  ⟨⟨by decide, claim8_theorem.1 100 10 (by decide)⟩,
   by decide, by decide,
   claim8_theorem.2.2 wCfg _ wDataset (by decide) (by decide)⟩

/-- The loss trace of a step is literally the loss capability applied to the
    state reached before the step and the freshly drawn batch. -/
theorem stepLoss_def {B S G : Type} (cfg : TrainerCfg B S G) (dtrain dval : Dataset B)
    (n : Nat) :
    stepLoss cfg dtrain dval n =
      (cfg.lossFn (runSteps cfg dtrain dval n).st
        (dtrain.trainBatches cfg.batchSize 0)).1 := rfl

/-- The loss accumulator after a step: emptied on a report boundary,
    otherwise extended with the step's scalar loss. -/
theorem trainStep_losses {B S G : Type} (cfg : TrainerCfg B S G)
    (dtrain dval : Dataset B) (n : Nat) (ls : LoopState B S) :
    (trainStep cfg dtrain dval n ls).losses =
      if (n + 1) % cfg.reportSteps = 0 then []
      else ls.losses ++ [(cfg.lossFn ls.st (dtrain.trainBatches cfg.batchSize 0)).1] := by
  simp only [trainStep]
  split <;> split <;> rfl

/-- The token accumulator after a step: zeroed on a report boundary,
    otherwise increased by the step's token count. -/
theorem trainStep_intvTokens {B S G : Type} (cfg : TrainerCfg B S G)
    (dtrain dval : Dataset B) (n : Nat) (ls : LoopState B S) :
    (trainStep cfg dtrain dval n ls).intvTokens =
      if (n + 1) % cfg.reportSteps = 0 then 0
      else ls.intvTokens +
        (cfg.lossFn ls.st (dtrain.trainBatches cfg.batchSize 0)).2.2 := by
  simp only [trainStep]
  split <;> split <;> rfl

/-- The report trace after a step: extended on a report boundary with the
    1-indexed step and the mean of the accumulated losses. -/
theorem trainStep_reports {B S G : Type} (cfg : TrainerCfg B S G)
    (dtrain dval : Dataset B) (n : Nat) (ls : LoopState B S) :
    (trainStep cfg dtrain dval n ls).reports =
      if (n + 1) % cfg.reportSteps = 0 then
        ls.reports ++ [(n + 1, mean (ls.losses ++
          [(cfg.lossFn ls.st (dtrain.trainBatches cfg.batchSize 0)).1]))]
      else ls.reports := by
  simp only [trainStep]
  split <;> split <;> rfl

/-- The callback trace after a step: extended exactly when a report fires and
    the callback is configured, with the same step index and mean loss. -/
theorem trainStep_callbackCalls {B S G : Type} (cfg : TrainerCfg B S G)
    (dtrain dval : Dataset B) (n : Nat) (ls : LoopState B S) :
    (trainStep cfg dtrain dval n ls).callbackCalls =
      if (n + 1) % cfg.reportSteps = 0 then
        (if cfg.hasReportCallback then
          ls.callbackCalls ++ [(n + 1, mean (ls.losses ++
            [(cfg.lossFn ls.st (dtrain.trainBatches cfg.batchSize 0)).1]))]
        else ls.callbackCalls)
      else ls.callbackCalls := by
  simp only [trainStep]
  split <;> split <;> rfl

/-- Successor division and remainder strictly inside a report interval. -/
theorem succ_mod_div {rs k : Nat} (hrs : 0 < rs) (h : (k + 1) % rs ≠ 0) :
    (k + 1) / rs = k / rs ∧ (k + 1) % rs = k % rs + 1 := by
  have hdm := Nat.div_add_mod k rs
  have hlt := Nat.mod_lt k hrs
  rcases Nat.lt_or_ge (k % rs + 1) rs with hlt2 | hge
  · constructor
    · conv_lhs => rw [← hdm]
      rw [Nat.add_assoc, Nat.mul_add_div hrs, Nat.div_eq_of_lt hlt2, Nat.add_zero]
    · conv_lhs => rw [← hdm]
      rw [Nat.add_assoc, Nat.mul_add_mod, Nat.mod_eq_of_lt hlt2]
  · exfalso
    apply h
    have heq : rs = k % rs + 1 := Nat.le_antisymm hge (Nat.succ_le_of_lt hlt)
    conv_lhs => rw [← hdm]
    rw [Nat.add_assoc, ← heq, Nat.mul_add_mod, Nat.mod_self]

/-- At a report boundary the interval that just finished has the full
    report_steps length and starts right after the previous boundary. -/
theorem report_boundary {rs n : Nat} (hrs : 0 < rs) (h : (n + 1) % rs = 0) :
    n % rs + 1 = rs ∧ rs * (n / rs) + rs = n + 1 := by
  have hdm := Nat.div_add_mod n rs
  have hlt := Nat.mod_lt n hrs
  have h1 : n % rs + 1 = rs := by
    by_contra hne
    have hlt2 : n % rs + 1 < rs := Nat.lt_of_le_of_ne (Nat.succ_le_of_lt hlt) hne
    apply absurd h
    have hmod : (n + 1) % rs = n % rs + 1 := by
      conv_lhs => rw [← hdm]
      rw [Nat.add_assoc, Nat.mul_add_mod, Nat.mod_eq_of_lt hlt2]
    rw [hmod]
    exact Nat.succ_ne_zero _
  have h2 : rs * (n / rs) + (n % rs + 1) = n + 1 := by rw [← Nat.add_assoc, hdm]
  rw [h1] at h2
  exact ⟨h1, h2⟩

/-- Loop invariant: after k steps the loss accumulator holds exactly the
    per-step losses of the steps since the last report boundary. -/
theorem runSteps_losses {B S G : Type} (cfg : TrainerCfg B S G)
    (dtrain dval : Dataset B) (hrs : 0 < cfg.reportSteps) (k : Nat) :
    (runSteps cfg dtrain dval k).losses =
      (List.range' (cfg.reportSteps * (k / cfg.reportSteps)) (k % cfg.reportSteps)).map
        (stepLoss cfg dtrain dval) := by
  induction k with
  | zero => simp [runSteps, initLoop]
  | succ k ih =>
    rw [runSteps_succ, trainStep_losses]
    by_cases hk : (k + 1) % cfg.reportSteps = 0
    · rw [if_pos hk, hk]
      simp
    · obtain ⟨hdiv, hmod⟩ := succ_mod_div hrs hk
      rw [if_neg hk, ih, hdiv, hmod, List.range'_concat, List.map_append,
        Nat.one_mul, Nat.div_add_mod]
      rfl

/-- C7: at every global step n with (n+1) % report_steps == 0, the report
    just emitted carries the arithmetic mean of exactly the per-step losses
    recorded since the last report (or since the start for the first
    report), the callback is invoked with the same pair when configured,
    and the loss and token accumulators are empty and zero afterwards. -/
theorem claim7_theorem {B S G : Type} (cfg : TrainerCfg B S G)
    (dtrain dval : Dataset B) (n : Nat) (hrs : 0 < cfg.reportSteps)
    (hmod : (n + 1) % cfg.reportSteps = 0) :
    (runSteps cfg dtrain dval (n + 1)).reports.getLast? =
      some (n + 1, mean ((List.range' (n + 1 - cfg.reportSteps) cfg.reportSteps).map
        (stepLoss cfg dtrain dval))) ∧
    (cfg.hasReportCallback = true →
      (runSteps cfg dtrain dval (n + 1)).callbackCalls.getLast? =
        some (n + 1, mean ((List.range' (n + 1 - cfg.reportSteps) cfg.reportSteps).map
          (stepLoss cfg dtrain dval)))) ∧
    (runSteps cfg dtrain dval (n + 1)).losses = [] ∧
    (runSteps cfg dtrain dval (n + 1)).intvTokens = 0 := by
  obtain ⟨hr1, hr2⟩ := report_boundary hrs hmod
  have hs : n + 1 - cfg.reportSteps = cfg.reportSteps * (n / cfg.reportSteps) := by
    conv_lhs => rw [← hr2]
    exact Nat.add_sub_cancel _ _
  have hblock : (runSteps cfg dtrain dval n).losses ++ [stepLoss cfg dtrain dval n] =
      (List.range' (n + 1 - cfg.reportSteps) cfg.reportSteps).map
        (stepLoss cfg dtrain dval) := by
    rw [runSteps_losses cfg dtrain dval hrs n, hs]
    have hgen : ∀ s : Nat, s + n % cfg.reportSteps = n →
        List.range' s cfg.reportSteps =
          List.range' s (n % cfg.reportSteps) ++ [n] := by
      intro s hsn
      conv_lhs => rw [← hr1]
      rw [List.range'_concat, Nat.one_mul, hsn]
    rw [hgen (cfg.reportSteps * (n / cfg.reportSteps)) (Nat.div_add_mod n cfg.reportSteps),
      List.map_append]
    rfl
  refine ⟨?_, ?_, ?_, ?_⟩
  · rw [runSteps_succ, trainStep_reports, if_pos hmod, List.getLast?_concat,
      ← stepLoss_def, hblock]
  · intro hcb
    rw [runSteps_succ, trainStep_callbackCalls, if_pos hmod, if_pos hcb,
      List.getLast?_concat, ← stepLoss_def, hblock]
  · rw [runSteps_succ, trainStep_losses, if_pos hmod]
  · rw [runSteps_succ, trainStep_intvTokens, if_pos hmod]

/-- C7 witness: with report_steps = 2 the report after step 2 carries the
    mean of the two recorded losses and the accumulators are reset. -/
theorem claim7_witness :
    (0 < wCfg.reportSteps ∧ (1 + 1) % wCfg.reportSteps = 0) ∧
    ((runSteps wCfg wDataset wDataset (1 + 1)).reports.getLast? =
      some (1 + 1, mean ((List.range' (1 + 1 - wCfg.reportSteps) wCfg.reportSteps).map
        (stepLoss wCfg wDataset wDataset))) ∧
    (wCfg.hasReportCallback = true →
      (runSteps wCfg wDataset wDataset (1 + 1)).callbackCalls.getLast? =
        some (1 + 1, mean ((List.range' (1 + 1 - wCfg.reportSteps) wCfg.reportSteps).map
          (stepLoss wCfg wDataset wDataset)))) ∧
    (runSteps wCfg wDataset wDataset (1 + 1)).losses = [] ∧
    (runSteps wCfg wDataset wDataset (1 + 1)).intvTokens = 0) :=
  ⟨⟨by decide, by decide⟩, claim7_theorem wCfg wDataset wDataset 1 (by decide) (by decide)⟩

/-- C10: every global step draws its batch as the first element of a fresh
    training-mode iterator, so after k steps the consumed batches are k
    copies of the stream's first batch. -/
theorem claim10_theorem {B S G : Type} (cfg : TrainerCfg B S G)
    (dtrain dval : Dataset B) (k : Nat)
    (_hrs : 0 < cfg.reportSteps) (_hes : 0 < cfg.evalSteps) :
    (runSteps cfg dtrain dval k).batchesUsed =
      List.replicate k (dtrain.trainBatches cfg.batchSize 0) :=
  runSteps_batchesUsed cfg dtrain dval k

/-- C10 witness: three steps of the concrete configuration each consume the
    first batch of the fresh training iterator. -/
theorem claim10_witness :
    (0 < wCfg.reportSteps ∧ 0 < wCfg.evalSteps) ∧
    (runSteps wCfg wDataset wDataset 3).batchesUsed =
      List.replicate 3 (wDataset.trainBatches wCfg.batchSize 0) :=
  ⟨⟨by decide, by decide⟩, claim10_theorem wCfg wDataset wDataset 3 (by decide) (by decide)⟩

/-- C9 witness: the theorem at dims = 2, a concrete input and rsqrt. -/
theorem claim9_witness :
    (Tensor1.mk [1, 3] DType.fp16).data.length = 2 ∧
    ((RMSNormM.init 2 0).weight.data = List.replicate 2 1 ∧
     ((RMSNormM.init 2 0).apply (fun _ => 1) (Tensor1.mk [1, 3] DType.fp16)).data =
       (Tensor1.mk [1, 3] DType.fp16).data.map (fun v =>
         2 * (v * (fun _ => (1 : ℚ))
           (mean ((Tensor1.mk [1, 3] DType.fp16).data.map (fun u => u * u)) + 0))) ∧
     (0 < 2 → (RMSNormM.init 2 0).weight.data ≠ List.replicate 2 0)) :=
  ⟨rfl, claim9_theorem 2 0 (fun _ => 1) (Tensor1.mk [1, 3] DType.fp16) rfl⟩

end SiLLM
